import Mathlib

/-!
Verification development for the cognitive-complexity analyzer
(`metricsAnalyzer/languages/csharpAnalyzer.ts`, `metricsAnalyzer/languages/goAnalyzer.ts`,
`metricsAnalyzer/metricsAnalyzerFactory.ts`).

The tree-sitter syntax tree is embedded as `Node`: every node carries its kind
tag (`ty`), the slice of the source text it covers (`txt`, standing in for
`sourceText.substring(node.startIndex, node.endIndex)`), its start and end
row/column, and its ordered children.  Parent pointers of the real tree are
embedded as an explicit ancestor context `Ctx`: the list of
(ancestor node, index of the child we descended into), innermost first.
The two tree-sitter parsers themselves are external black boxes; they are
embedded as parameters of type `String → Node`.

All numbers held in JavaScript variables that can be incremented or
decremented (`nesting`, `complexity`, `increment`) are embedded as `Int`;
row/column positions delivered by tree-sitter are natural numbers.
-/

/-- One complexity detail, as in `CSharpMetricsDetail` / `GoMetricsDetail` /
`UnifiedMetricsDetail` (the three interfaces are structurally identical). -/
structure MetricsDetail where
  increment : Int
  reason : String
  line : Nat
  column : Nat
  nesting : Int
deriving Repr, DecidableEq

/-- One analyzed function, as in `CSharpFunctionMetrics` / `GoFunctionMetrics` /
`UnifiedFunctionMetrics` (structurally identical interfaces). -/
structure FunctionMetrics where
  name : String
  complexity : Int
  details : List MetricsDetail
  startLine : Nat
  endLine : Nat
  startColumn : Nat
  endColumn : Nat
deriving Repr, DecidableEq

/-- A tree-sitter syntax node: kind tag, covered source text, start/end
position, ordered children. -/
inductive Node : Type where
  | mk (ty : String) (txt : String) (startRow startCol endRow endCol : Nat)
      (children : List Node)
deriving Repr

/-- The node's `type` tag. -/
def Node.ty : Node → String
  | .mk t _ _ _ _ _ _ => t

/-- The source text covered by the node (`sourceText.substring(startIndex, endIndex)`). -/
def Node.txt : Node → String
  | .mk _ x _ _ _ _ _ => x

/-- Models `node.startPosition.row`. -/
def Node.startRow : Node → Nat
  | .mk _ _ r _ _ _ _ => r

/-- Models `node.startPosition.column`. -/
def Node.startCol : Node → Nat
  | .mk _ _ _ c _ _ _ => c

/-- Models `node.endPosition.row`. -/
def Node.endRow : Node → Nat
  | .mk _ _ _ _ r _ _ => r

/-- Models `node.endPosition.column`. -/
def Node.endCol : Node → Nat
  | .mk _ _ _ _ _ c _ => c

/-- Models `node.children`. -/
def Node.children : Node → List Node
  | .mk _ _ _ _ _ _ cs => cs

/-- Ancestor context replacing the tree's parent pointers: the list of
(ancestor, index of the child descended into), innermost ancestor first. -/
abbrev Ctx := List (Node × Nat)

/-! ### Text-pattern helpers

These model the JavaScript regular-expression tests used by the C# analyzer's
preprocessor-recovery heuristics (`getComplexityFromErrorNode`,
`getComplexityFromMalformedDeclaration`) on the node's raw source slice. -/

/-- JavaScript `\w`: ASCII letter, digit or underscore. -/
def isWordChar (c : Char) : Bool :=
  c.isAlpha || c.isDigit || c = '_'

/-- JavaScript `\s` (ASCII part): space, tab, newline, carriage return,
vertical tab, form feed. -/
def jsSpace (c : Char) : Bool :=
  c = ' ' || c = '\t' || c = '\n' || c = '\r' || c = '\x0b' || c = '\x0c'

/-- Match a literal character sequence at the head of `s`, returning the rest. -/
def matchChars : List Char → List Char → Option (List Char)
  | [], s => some s
  | k :: ks, c :: s => if c = k then matchChars ks s else none
  | _ :: _, [] => none

/-- Does `s` start with `kw`, then `\s*`, then the character `close`? -/
def kwThenClose (kw : List Char) (close : Char) (s : List Char) : Bool :=
  match matchChars kw s with
  | some rest =>
    match rest.dropWhile (fun c => jsSpace c) with
    | c :: _ => c = close
    | [] => false
  | none => false

/-- JavaScript `/\b<kw>\s*<close>/.test(s)`: somewhere in `s`, at a position not
preceded by a word character, the keyword followed by optional spaces and
`close` occurs.  `prev` is the character before the current position. -/
def searchKwClose (kw : List Char) (close : Char) : Option Char → List Char → Bool
  | _, [] => false
  | prev, c :: rest =>
    ((match prev with
      | none => true
      | some p => !isWordChar p) && kwThenClose kw close (c :: rest))
    || searchKwClose kw close (some c) rest

/-- Models `/\b<kw>\s*<close>/.test(s)` on a string. -/
def testKw (kw : String) (close : Char) (s : String) : Bool :=
  searchKwClose kw.data close none s.data

/-- Number of matches of `/&&|\|\|/g` (non-overlapping, left to right). -/
def countLogicalOps : List Char → Nat
  | '&' :: '&' :: rest => countLogicalOps rest + 1
  | '|' :: '|' :: rest => countLogicalOps rest + 1
  | _ :: rest => countLogicalOps rest
  | [] => 0

/-- Models `/&&|\|\|/.test(s)`. -/
def hasLogicalOp : List Char → Bool
  | '&' :: '&' :: _ => true
  | '|' :: '|' :: _ => true
  | _ :: rest => hasLogicalOp rest
  | [] => false

/-- Models `/\?[^?]*:/.test(s)`: a question mark followed by non-question-mark
characters and then a colon. -/
def hasTernaryPattern : List Char → Bool
  | [] => false
  | '?' :: rest => (rest.takeWhile (fun c => c != '?')).contains ':' || hasTernaryPattern rest
  | _ :: rest => hasTernaryPattern rest

/-- Models `s.includes("::")`. -/
def hasDoubleColon : List Char → Bool
  | ':' :: ':' :: _ => true
  | _ :: rest => hasDoubleColon rest
  | [] => false

/-- Helper for the malformed-declaration ternary pattern: after a `?`, scan for
a `:` that is preceded by at least one non-`?` character (`seen` records that)
and followed by a character that is neither `:` nor `;`; abort on another `?`. -/
def colonScan (seen : Bool) : List Char → Bool
  | [] => false
  | '?' :: _ => false
  | ':' :: u =>
    (seen && (match u with
      | v :: _ => !(v = ':' || v = ';')
      | [] => false))
    || colonScan true u
  | _ :: u => colonScan true u

/-- Models `/\w+\s*\?\s*[^?]+\s*:\s*[^:;]+/.test(s)`.  The flag `w` records whether the
characters just before the current position are a word character followed by
optional spaces. -/
def malformedTernScan (w : Bool) : List Char → Bool
  | [] => false
  | '?' :: rest => (w && colonScan false rest) || malformedTernScan false rest
  | c :: rest =>
    malformedTernScan (if isWordChar c then true else if jsSpace c then w else false) rest

/-- Models `/\w+\s*\?\s*[^?]+\s*:\s*[^:;]+/.test(s)` on a string. -/
def malformedTernPattern (s : String) : Bool :=
  malformedTernScan false s.data


/-- Shared mutable per-function analyzer state (`nesting`, `complexity`,
`details` fields of both analyzer classes). -/
structure AnalyzerState where
  nesting : Int
  complexity : Int
  details : List MetricsDetail
deriving Repr, DecidableEq

/-- Find the first element satisfying `p` together with its index, starting
count at `i`: models `Array.prototype.find` when the index is also needed
(the JavaScript code recovers it by object identity via `indexOf`). -/
def findWithIdx (p : Node → Bool) : Nat → List Node → Option (Nat × Node)
  | _, [] => none
  | i, c :: rest => if p c then some (i, c) else findWithIdx p (i + 1) rest

namespace CSharpMetricsAnalyzer

/-- Models `CSharpMetricsAnalyzer.isFunctionDeclaration`. -/
def isFunctionDeclaration (node : Node) : Bool :=
  node.ty = "method_declaration" ||
  node.ty = "constructor_declaration" ||
  node.ty = "destructor_declaration" ||
  node.ty = "operator_declaration" ||
  node.ty = "conversion_operator_declaration" ||
  node.ty = "accessor_declaration" ||
  node.ty = "local_function_statement"

/-- Models `CSharpMetricsAnalyzer.increasesNesting`. -/
def increasesNesting (node : Node) : Bool :=
  node.ty = "if_statement" ||
  node.ty = "while_statement" ||
  node.ty = "for_statement" ||
  node.ty = "foreach_statement" ||
  node.ty = "switch_statement" ||
  node.ty = "try_statement" ||
  node.ty = "catch_clause" ||
  node.ty = "lambda_expression" ||
  node.ty = "anonymous_method_expression"

/-- Models `CSharpMetricsAnalyzer.getBinaryOperator`: text of the first child whose
kind is `&&`, `||` or `binary_operator`. -/
def getBinaryOperator (node : Node) : Option String :=
  (node.children.find? (fun child =>
    child.ty = "&&" || child.ty = "||" || child.ty = "binary_operator")).map Node.txt

/-- Models `CSharpMetricsAnalyzer.isInPreprocessorBlock`: some ancestor's kind starts
with `preproc_`. -/
def isInPreprocessorBlock (ctx : Ctx) : Bool :=
  ctx.any (fun p => (p.1).ty.startsWith "preproc_")

/-- Models `CSharpMetricsAnalyzer.hasMatchingColonInSiblings`: among the (at most two)
siblings following the error node, one whose text contains `:` but not `::`. -/
def hasMatchingColonInSiblings (ctx : Ctx) : Bool :=
  match ctx with
  | [] => false
  | (parent, errorIndex) :: _ =>
    ((parent.children.drop (errorIndex + 1)).take 2).any (fun sibling =>
      sibling.txt.data.contains ':' && !hasDoubleColon sibling.txt.data)

/-- Models `CSharpMetricsAnalyzer.getComplexityFromErrorNode`. -/
def getComplexityFromErrorNode (ctx : Ctx) (errorNode : Node) : Int :=
  let text := errorNode.txt
  (if testKw "if" '(' text then 1 else 0) +
  (if testKw "while" '(' text then 1 else 0) +
  (if testKw "for" '(' text then 1 else 0) +
  (if testKw "foreach" '(' text then 1 else 0) +
  (countLogicalOps text.data : Int) +
  (if hasTernaryPattern text.data ||
      (text.data.contains '?' && hasMatchingColonInSiblings ctx) then 1 else 0) +
  (if testKw "try" '\x7b' text then 1 else 0) +
  (if testKw "catch" '(' text then 1 else 0)

/-- Models `CSharpMetricsAnalyzer.getComplexityFromMalformedDeclaration`. -/
def getComplexityFromMalformedDeclaration (ctx : Ctx) (declarationNode : Node) : Int :=
  if !isInPreprocessorBlock ctx then 0
  else
    (if malformedTernPattern declarationNode.txt then 1 else 0) +
    (countLogicalOps declarationNode.txt.data : Int)

/-- Models `CSharpMetricsAnalyzer.getComplexityIncrement`. -/
def getComplexityIncrement (ctx : Ctx) (nesting : Int) (node : Node) : Int :=
  match node.ty with
  | "if_statement" | "while_statement" | "for_statement" | "foreach_statement"
  | "switch_statement" | "switch_expression" => 1
  | "try_statement" | "catch_clause" => 1
  | "binary_expression" =>
    match getBinaryOperator node with
    | some op => if op = "&&" || op = "||" then 1 else 0
    | none => 0
  | "conditional_expression" => 1
  | "lambda_expression" | "anonymous_method_expression" =>
    if nesting > 0 then 1 else 0
  | "continue_statement" | "break_statement" =>
    if nesting > 0 then 1 else 0
  | "goto_statement" => 1
  | "ERROR" => getComplexityFromErrorNode ctx node
  | "field_declaration" | "variable_declaration" =>
    getComplexityFromMalformedDeclaration ctx node
  | _ => 0

/-- Models `CSharpMetricsAnalyzer.getComplexityReasonFromErrorNode` (the `text`
binding of the source is inlined as `errorNode.txt`). -/
def getComplexityReasonFromErrorNode (ctx : Ctx) (errorNode : Node) : String :=
  if testKw "if" '(' errorNode.txt then "if statement (in preprocessor block)"
  else if testKw "while" '(' errorNode.txt then "while loop (in preprocessor block)"
  else if testKw "for" '(' errorNode.txt then "for loop (in preprocessor block)"
  else if testKw "foreach" '(' errorNode.txt then "foreach loop (in preprocessor block)"
  else if hasLogicalOp errorNode.txt.data then "logical operator (in preprocessor block)"
  else if hasTernaryPattern errorNode.txt.data ||
      (errorNode.txt.data.contains '?' && hasMatchingColonInSiblings ctx) then
    "ternary operator (in preprocessor block)"
  else if testKw "try" '\x7b' errorNode.txt then "try statement (in preprocessor block)"
  else if testKw "catch" '(' errorNode.txt then "catch clause (in preprocessor block)"
  else "complexity pattern (in preprocessor block)"

/-- Models `CSharpMetricsAnalyzer.getComplexityReasonFromMalformedDeclaration`. -/
def getComplexityReasonFromMalformedDeclaration (ctx : Ctx) (declarationNode : Node) : String :=
  if !isInPreprocessorBlock ctx then "complexity in declaration"
  else if malformedTernPattern declarationNode.txt then
    "ternary operator (in preprocessor block)"
  else if hasLogicalOp declarationNode.txt.data then
    "logical operator (in preprocessor block)"
  else "complexity pattern in declaration (preprocessor block)"

/-- Models `CSharpMetricsAnalyzer.getComplexityReason`. -/
def getComplexityReason (ctx : Ctx) (node : Node) : String :=
  match node.ty with
  | "if_statement" => "if statement"
  | "while_statement" => "while loop"
  | "for_statement" => "for loop"
  | "foreach_statement" => "foreach loop"
  | "switch_statement" => "switch statement"
  | "switch_expression" => "switch expression"
  | "try_statement" => "try statement"
  | "catch_clause" => "catch clause"
  | "binary_expression" =>
    match getBinaryOperator node with
    | some op => "binary " ++ op ++ " operator"
    | none => "binary null operator"
  | "conditional_expression" => "ternary operator"
  | "lambda_expression" => "lambda expression (nested)"
  | "anonymous_method_expression" => "anonymous method (nested)"
  | "continue_statement" => "continue statement (nested)"
  | "break_statement" => "break statement (nested)"
  | "goto_statement" => "goto statement"
  | "ERROR" => getComplexityReasonFromErrorNode ctx node
  | "field_declaration" | "variable_declaration" =>
    getComplexityReasonFromMalformedDeclaration ctx node
  | _ => "unknown complexity source"

mutual

/-- Models `CSharpMetricsAnalyzer.visit`: record an increment of
`baseIncrement + nesting` when the base increment is positive, then walk the
children (at nesting + 1 for nesting-increasing nodes), skipping children that
are function declarations. -/
def visit : Ctx → Node → AnalyzerState → AnalyzerState
  | ctx, node@(.mk _ _ _ _ _ _ cs), st =>
    let baseIncrement := getComplexityIncrement ctx st.nesting node
    let st1 :=
      if baseIncrement > 0 then
        { st with
          complexity := st.complexity + (baseIncrement + st.nesting),
          details := st.details ++
            [{ increment := baseIncrement + st.nesting,
               reason := getComplexityReason ctx node,
               line := node.startRow,
               column := node.startCol,
               nesting := st.nesting }] }
      else st
    if increasesNesting node then
      let st2 := visitChildren node ctx 0 cs { st1 with nesting := st1.nesting + 1 }
      { st2 with nesting := st2.nesting - 1 }
    else
      visitChildren node ctx 0 cs st1

/-- The child loop of `CSharpMetricsAnalyzer.visit`, threading the child index
for the ancestor context. -/
def visitChildren : Node → Ctx → Nat → List Node → AnalyzerState → AnalyzerState
  | _, _, _, [], st => st
  | parent, ctx, i, child :: rest, st =>
    let st1 := if isFunctionDeclaration child then st
               else visit ((parent, i) :: ctx) child st
    visitChildren parent ctx (i + 1) rest st1

end

end CSharpMetricsAnalyzer

namespace CSharpMetricsAnalyzer

/-- Models `CSharpMetricsAnalyzer.getFunctionName`. -/
def getFunctionName (ctx : Ctx) (node : Node) : String :=
  if node.ty = "constructor_declaration" then
    match (ctx.map Prod.fst).find? (fun p => p.ty = "class_declaration") with
    | some parent =>
      match parent.children.find? (fun child => child.ty = "identifier") with
      | some classNameNode => classNameNode.txt ++ " (constructor)"
      | none => "<constructor>"
    | none => "<constructor>"
  else if node.ty = "destructor_declaration" then "~<destructor>"
  else
    match node.children.find? (fun child => child.ty = "identifier") with
    | some nameNode => nameNode.txt
    | none => "<anonymous>"

/-- The sibling scan of `CSharpMetricsAnalyzer.getFunctionBody`: starting at
index `i`, return the first `preproc_if` sibling (with its index), stopping at
the next function or type declaration. -/
def scanForPreproc : Nat → List Node → Option (Nat × Node)
  | _, [] => none
  | i, sibling :: rest =>
    if sibling.ty = "preproc_if" then some (i, sibling)
    else if isFunctionDeclaration sibling ||
        sibling.ty = "class_declaration" ||
        sibling.ty = "interface_declaration" then none
    else scanForPreproc (i + 1) rest

/-- Models `CSharpMetricsAnalyzer.getFunctionBody` (with
`createSyntheticBodyFromPreprocessor` inlined, which returns the preprocessor
node itself).  Returns the body node together with its ancestor context. -/
def getFunctionBody (ctx : Ctx) (node : Node) : Option (Ctx × Node) :=
  match findWithIdx
      (fun child => child.ty = "block" || child.ty = "arrow_expression_clause")
      0 node.children with
  | some (j, directBody) => some ((node, j) :: ctx, directBody)
  | none =>
    match node.children.getLast? with
    | some lastChild =>
      if lastChild.ty = ";" then
        match ctx with
        | (parent, methodIndex) :: up =>
          match scanForPreproc (methodIndex + 1)
              (parent.children.drop (methodIndex + 1)) with
          | some (i, sibling) => some ((parent, i) :: up, sibling)
          | none => none
        | [] => none
      else none
    | none => none

/-- Models `CSharpMetricsAnalyzer.analyzeFunction`: reset the state, find name and
body, walk the body; `none` when the declaration has no body. -/
def analyzeFunction (ctx : Ctx) (node : Node) : Option FunctionMetrics :=
  let functionName := getFunctionName ctx node
  match getFunctionBody ctx node with
  | none => none
  | some (bodyCtx, body) =>
    let st := visit bodyCtx body { nesting := 0, complexity := 0, details := [] }
    some { name := functionName,
           complexity := st.complexity,
           details := st.details,
           startLine := node.startRow,
           endLine := node.endRow,
           startColumn := node.startCol,
           endColumn := node.endCol }

mutual

/-- The outer traversal of `CSharpMetricsAnalyzer.analyzeFunctions`: at every
node that is a function declaration, analyze it (dropping bodyless results),
then recurse into all children. -/
def collect : Ctx → Node → List FunctionMetrics
  | ctx, node@(.mk _ _ _ _ _ _ cs) =>
    (if isFunctionDeclaration node then (analyzeFunction ctx node).toList else [])
    ++ collectChildren node ctx 0 cs

/-- Child loop of the outer traversal. -/
def collectChildren : Node → Ctx → Nat → List Node → List FunctionMetrics
  | _, _, _, [] => []
  | parent, ctx, i, child :: rest =>
    collect ((parent, i) :: ctx) child ++ collectChildren parent ctx (i + 1) rest

end

/-- Models `CSharpMetricsAnalyzer.analyzeFunctions` applied to the parsed tree. -/
def analyzeFunctions (root : Node) : List FunctionMetrics :=
  collect [] root

/-- Models `CSharpMetricsAnalyzer.analyzeFile`, with the tree-sitter C# parser passed
in as a black box. -/
def analyzeFile (parse : String → Node) (sourceText : String) : List FunctionMetrics :=
  analyzeFunctions (parse sourceText)

end CSharpMetricsAnalyzer

namespace GoMetricsAnalyzer

/-- Models `GoMetricsAnalyzer.isFunctionDeclaration`. -/
def isFunctionDeclaration (node : Node) : Bool :=
  node.ty = "function_declaration" || node.ty = "method_declaration"

/-- Models `GoMetricsAnalyzer.increasesNesting`. -/
def increasesNesting (node : Node) : Bool :=
  node.ty = "if_statement" ||
  node.ty = "for_statement" ||
  node.ty = "expression_switch_statement" ||
  node.ty = "type_switch_statement" ||
  node.ty = "select_statement" ||
  node.ty = "func_literal"

/-- Models `GoMetricsAnalyzer.getBinaryOperator`: the first child whose source text is
`&&` or `||`. -/
def getBinaryOperator (node : Node) : Option String :=
  (node.children.find? (fun child =>
    child.txt = "&&" || child.txt = "||")).map Node.txt

/-- Models `GoMetricsAnalyzer.isRecoverCall`. -/
def isRecoverCall (node : Node) : Bool :=
  match node.children.find? (fun child => child.ty = "identifier") with
  | some funcNode => funcNode.txt = "recover"
  | none => false

/-- Models `GoMetricsAnalyzer.getComplexityIncrement`. -/
def getComplexityIncrement (nesting : Int) (node : Node) : Int :=
  match node.ty with
  | "if_statement" | "for_statement" | "expression_switch_statement"
  | "type_switch_statement" | "select_statement" => 1
  | "binary_expression" =>
    match getBinaryOperator node with
    | some op => if op = "&&" || op = "||" then 1 else 0
    | none => 0
  | "func_literal" => if nesting > 0 then 1 else 0
  | "break_statement" | "continue_statement" =>
    if node.children.any (fun child => child.ty = "label_name") then 1
    else if nesting > 0 then 1 else 0
  | "goto_statement" => 1
  | "call_expression" => if isRecoverCall node then 1 else 0
  | _ => 0

/-- Models `GoMetricsAnalyzer.getComplexityReason`. -/
def getComplexityReason (node : Node) : String :=
  match node.ty with
  | "if_statement" => "if statement"
  | "for_statement" => "for loop"
  | "expression_switch_statement" => "switch statement"
  | "type_switch_statement" => "type switch statement"
  | "select_statement" => "select statement"
  | "binary_expression" =>
    match getBinaryOperator node with
    | some op => "binary " ++ op ++ " operator"
    | none => "binary null operator"
  | "func_literal" => "function literal (nested)"
  | "break_statement" =>
    if node.children.any (fun child => child.ty = "label_name") then
      "labeled break statement"
    else "break statement (nested)"
  | "continue_statement" =>
    if node.children.any (fun child => child.ty = "label_name") then
      "labeled continue statement"
    else "continue statement (nested)"
  | "goto_statement" => "goto statement"
  | "call_expression" =>
    if isRecoverCall node then "recover call" else "call expression"
  | _ => "unknown complexity source"

mutual

/-- Models `GoMetricsAnalyzer.visit`: record the increment (no nesting addend for this
language), then walk the children (at nesting + 1 for nesting-increasing
nodes), skipping children that are function declarations. -/
def visit : Node → AnalyzerState → AnalyzerState
  | node@(.mk _ _ _ _ _ _ cs), st =>
    let increment := getComplexityIncrement st.nesting node
    let st1 :=
      if increment > 0 then
        { st with
          complexity := st.complexity + increment,
          details := st.details ++
            [{ increment := increment,
               reason := getComplexityReason node,
               line := node.startRow,
               column := node.startCol,
               nesting := st.nesting }] }
      else st
    if increasesNesting node then
      let st2 := visitChildren cs { st1 with nesting := st1.nesting + 1 }
      { st2 with nesting := st2.nesting - 1 }
    else
      visitChildren cs st1

/-- The child loop of `GoMetricsAnalyzer.visit`. -/
def visitChildren : List Node → AnalyzerState → AnalyzerState
  | [], st => st
  | child :: rest, st =>
    let st1 := if isFunctionDeclaration child then st else visit child st
    visitChildren rest st1

end

/-- Models `GoMetricsAnalyzer.findTypeInParameterList`: the first
`parameter_declaration` child containing a type node yields that type node. -/
def findTypeInParameterList (parameterList : Node) : Option Node :=
  parameterList.children.findSome? (fun child =>
    if child.ty = "parameter_declaration" then
      child.children.find? (fun c =>
        c.ty = "type_identifier" || c.ty = "pointer_type" ||
        c.ty = "qualified_type")
    else none)

/-- Models `GoMetricsAnalyzer.getFunctionName`. -/
def getFunctionName (node : Node) : String :=
  let fromRegular : String :=
    match node.children.find? (fun child => child.ty = "identifier") with
    | some nameNode => nameNode.txt
    | none => "<anonymous>"
  if node.ty = "method_declaration" then
    let receiver := node.children.find? (fun child => child.ty = "parameter_list")
    let nameNode := node.children.find? (fun child => child.ty = "field_identifier")
    let receiverType : String :=
      match receiver with
      | some r =>
        match findTypeInParameterList r with
        | some typeNode => typeNode.txt
        | none => ""
      | none => ""
    match nameNode with
    | some nn => if receiverType = "" then nn.txt else receiverType ++ "." ++ nn.txt
    | none => fromRegular
  else fromRegular

/-- Models `GoMetricsAnalyzer.getFunctionBody`: the first `block` child. -/
def getFunctionBody (node : Node) : Option Node :=
  node.children.find? (fun child => child.ty = "block")

/-- Models `GoMetricsAnalyzer.analyzeFunction`. -/
def analyzeFunction (node : Node) : Option FunctionMetrics :=
  let functionName := getFunctionName node
  match getFunctionBody node with
  | none => none
  | some body =>
    let st := visit body { nesting := 0, complexity := 0, details := [] }
    some { name := functionName,
           complexity := st.complexity,
           details := st.details,
           startLine := node.startRow,
           endLine := node.endRow,
           startColumn := node.startCol,
           endColumn := node.endCol }

mutual

/-- The outer traversal of `GoMetricsAnalyzer.analyzeFunctions`. -/
def collect : Node → List FunctionMetrics
  | node@(.mk _ _ _ _ _ _ cs) =>
    (if isFunctionDeclaration node then (analyzeFunction node).toList else [])
    ++ collectChildren cs

/-- Child loop of the outer traversal. -/
def collectChildren : List Node → List FunctionMetrics
  | [] => []
  | child :: rest => collect child ++ collectChildren rest

end

/-- Models `GoMetricsAnalyzer.analyzeFunctions` applied to the parsed tree. -/
def analyzeFunctions (root : Node) : List FunctionMetrics :=
  collect root

/-- Models `GoMetricsAnalyzer.analyzeFile`, with the tree-sitter Go parser passed in
as a black box. -/
def analyzeFile (parse : String → Node) (sourceText : String) : List FunctionMetrics :=
  analyzeFunctions (parse sourceText)

end GoMetricsAnalyzer

/-- The per-detail mapping that both factory wrappers apply inline
(`detail => ({ increment, reason, line: detail.line + 1,
column: detail.column + 1, nesting })`): shift line and column from 0-based to
1-based, pass the other fields through. -/
def normalizeDetail (detail : MetricsDetail) : MetricsDetail :=
  { increment := detail.increment,
    reason := detail.reason,
    line := detail.line + 1,
    column := detail.column + 1,
    nesting := detail.nesting }

/-- The per-function mapping that both factory wrappers apply inline:
`func => ({ name, complexity, details: func.details.map(...), startLine,
... endColumn })`. -/
def normalizeFunctionMetrics (func : FunctionMetrics) : FunctionMetrics :=
  { name := func.name,
    complexity := func.complexity,
    details := func.details.map normalizeDetail,
    startLine := func.startLine,
    endLine := func.endLine,
    startColumn := func.startColumn,
    endColumn := func.endColumn }

/-- Models `createCSharpAnalyzer` from `metricsAnalyzerFactory.ts`: run the C#
analyzer, then apply the inline result mapping (named
`normalizeFunctionMetrics` here). -/
def createCSharpAnalyzer (csParse : String → Node) : String → List FunctionMetrics :=
  fun sourceText =>
    (CSharpMetricsAnalyzer.analyzeFile csParse sourceText).map normalizeFunctionMetrics

/-- Models `createGoAnalyzer` from `metricsAnalyzerFactory.ts`: run the Go analyzer,
then apply the same inline result mapping. -/
def createGoAnalyzer (goParse : String → Node) : String → List FunctionMetrics :=
  fun sourceText =>
    (GoMetricsAnalyzer.analyzeFile goParse sourceText).map normalizeFunctionMetrics

/-- The `languageAnalyzers` record (an insertion-ordered object in the source,
so an association list here). -/
def languageAnalyzers (csParse goParse : String → Node) :
    List (String × (String → List FunctionMetrics)) :=
  [("csharp", createCSharpAnalyzer csParse), ("go", createGoAnalyzer goParse)]

namespace MetricsAnalyzerFactory

/-- Models `MetricsAnalyzerFactory.getSupportedLanguages` = `Object.keys(languageAnalyzers)`. -/
def getSupportedLanguages (csParse goParse : String → Node) : List String :=
  (languageAnalyzers csParse goParse).map Prod.fst

/-- Models `MetricsAnalyzerFactory.analyzeFile`: dispatch on the language id; `none`
stands for a JavaScript `null`/`undefined` id, whose object lookup misses. -/
def analyzeFile (csParse goParse : String → Node) (sourceText : String)
    (languageId : Option String) : List FunctionMetrics :=
  match languageId with
  | some l =>
    match (languageAnalyzers csParse goParse).find? (fun p => p.1 = l) with
    | some p => p.2 sourceText
    | none => []
  | none => []

end MetricsAnalyzerFactory

/-! ### Specification devices for the C# walk -/

namespace CSharpMetricsAnalyzer

mutual

/-- Specification device (not part of the source): the
(ancestor context, node, nesting level) triples at which `visit` records a
complexity detail, in traversal order. -/
def recordedNodes : Ctx → Node → Int → List (Ctx × Node × Int)
  | ctx, node@(.mk _ _ _ _ _ _ cs), k =>
    (if getComplexityIncrement ctx k node > 0 then [(ctx, node, k)] else []) ++
    (if increasesNesting node then recordedChildren node ctx 0 cs (k + 1)
     else recordedChildren node ctx 0 cs k)

/-- Child part of `recordedNodes`. -/
def recordedChildren : Node → Ctx → Nat → List Node → Int → List (Ctx × Node × Int)
  | _, _, _, [], _ => []
  | parent, ctx, i, child :: rest, k =>
    (if isFunctionDeclaration child then []
     else recordedNodes ((parent, i) :: ctx) child k) ++
    recordedChildren parent ctx (i + 1) rest k

end

/-- The detail `visit` records for one triple: base increment plus nesting. -/
def mkDetail (p : Ctx × Node × Int) : MetricsDetail :=
  { increment := getComplexityIncrement p.1 p.2.2 p.2.1 + p.2.2,
    reason := getComplexityReason p.1 p.2.1,
    line := p.2.1.startRow,
    column := p.2.1.startCol,
    nesting := p.2.2 }

end CSharpMetricsAnalyzer

/-! ### Specification devices for the Go walk -/

namespace GoMetricsAnalyzer

mutual

/-- Specification device (not part of the source): the (node, nesting level)
pairs at which the Go `visit` records a complexity detail, in traversal
order. -/
def recordedNodes : Node → Int → List (Node × Int)
  | node@(.mk _ _ _ _ _ _ cs), k =>
    (if getComplexityIncrement k node > 0 then [(node, k)] else []) ++
    (if increasesNesting node then recordedChildren cs (k + 1)
     else recordedChildren cs k)

/-- Child part of `recordedNodes`. -/
def recordedChildren : List Node → Int → List (Node × Int)
  | [], _ => []
  | child :: rest, k =>
    (if isFunctionDeclaration child then [] else recordedNodes child k) ++
    recordedChildren rest k

end

/-- The detail the Go `visit` records for one pair: the base increment alone,
with no nesting addend. -/
def mkDetail (p : Node × Int) : MetricsDetail :=
  { increment := getComplexityIncrement p.2 p.1,
    reason := getComplexityReason p.1,
    line := p.1.startRow,
    column := p.1.startCol,
    nesting := p.2 }

end GoMetricsAnalyzer

namespace CSharpMetricsAnalyzer

/-- The set of nodes the scorer's walk can reach from a function body: the
body itself, or reachable by descending into a child that is not itself a
function declaration. -/
inductive SkipWalk : Node → Node → Prop where
  | refl (n : Node) : SkipWalk n n
  | child {n c m : Node} : c ∈ n.children →
      isFunctionDeclaration c = false → SkipWalk c m → SkipWalk n m

/-- The node kinds of the Language A rule table (§4.2 of the spec), i.e. every
kind the C# scorer can record other than the parser-error and
malformed-declaration recovery kinds. -/
def ruleTableKinds : List String :=
  ["if_statement", "while_statement", "for_statement", "foreach_statement",
   "switch_statement", "switch_expression", "try_statement", "catch_clause",
   "binary_expression", "conditional_expression", "lambda_expression",
   "anonymous_method_expression", "continue_statement", "break_statement",
   "goto_statement"]

/-- A path from `(ctx, n)` to a descendant `(c, d)` in the tree, recording the
ancestor contexts built along the way. -/
inductive TreePath : Ctx → Node → Ctx → Node → Prop where
  | refl (ctx : Ctx) (n : Node) : TreePath ctx n ctx n
  | step {ctx : Ctx} {n : Node} {c : Ctx} {d : Node} (i : Nat) {child : Node} :
      n.children[i]? = some child →
      TreePath ((n, i) :: ctx) child c d → TreePath ctx n c d

end CSharpMetricsAnalyzer

namespace GoMetricsAnalyzer

/-- The set of nodes the Go scorer's walk can reach from a function body. -/
inductive SkipWalk : Node → Node → Prop where
  | refl (n : Node) : SkipWalk n n
  | child {n c m : Node} : c ∈ n.children →
      isFunctionDeclaration c = false → SkipWalk c m → SkipWalk n m

/-- Descendant relation in the tree (through all children). -/
inductive TreePath : Node → Node → Prop where
  | refl (n : Node) : TreePath n n
  | step {n child d : Node} : child ∈ n.children → TreePath child d → TreePath n d

end GoMetricsAnalyzer

/-! ### Concrete trees used by witnesses and counterexamples -/

/-- Models `block { }` token node helper: a leaf whose text equals its kind tag. -/
def tokenNode (t : String) : Node := .mk t t 0 0 0 0 []

/-- Models `try { } catch (ArgumentException ex) { } catch (InvalidOperationException ex) { }`
as tree-sitter-c-sharp parses it: the catch clauses are children of the
`try_statement`. -/
def tryTwoCatchStatement : Node :=
  .mk "try_statement" "" 3 24 10 25
    [tokenNode "try", .mk "block" "" 3 28 5 25 [],
     .mk "catch_clause" "" 6 24 8 25 [],
     .mk "catch_clause" "" 8 26 10 25 []]

/-- The body block of the `MultipleCatch` method. -/
def tryTwoCatchBody : Node :=
  .mk "block" "" 2 48 11 21 [tryTwoCatchStatement]

/-- The `MultipleCatch` method declaration. -/
def tryTwoCatchMethod : Node :=
  .mk "method_declaration" "" 2 20 11 21
    [.mk "identifier" "MultipleCatch" 2 32 2 45 [], tryTwoCatchBody]

/-- A class wrapping the `MultipleCatch` method. -/
def tryTwoCatchTree : Node :=
  .mk "class_declaration" "" 1 16 12 17
    [tokenNode "class", .mk "identifier" "Test" 1 29 1 33 [], tryTwoCatchMethod]

/-- An unparsed fragment `if (` as an `ERROR` node (preprocessor recovery). -/
def errorNodeA : Node := .mk "ERROR" "if (" 1 0 1 4 []

/-- An unparsed fragment `if (a && b` as an `ERROR` node, nested inside an
`if_statement`. -/
def errorNodeB : Node := .mk "ERROR" "if (a && b" 3 4 3 14 []

/-- An `if_statement` containing `errorNodeB`. -/
def ifWithErrorNode : Node := .mk "if_statement" "" 2 0 4 1 [errorNodeB]

/-- A function body containing two `ERROR` recovery nodes of the same kind at
nesting levels 0 and 1. -/
def twoErrorBody : Node := .mk "block" "" 0 0 5 1 [errorNodeA, ifWithErrorNode]

/-- Recorded triple for `errorNodeA` (nesting 0). -/
def twoErrorTripleA : Ctx × Node × Int := (((twoErrorBody, 0) : Node × Nat) :: [], errorNodeA, 0)

/-- Recorded triple for the `if_statement` (nesting 0). -/
def twoErrorTripleIf : Ctx × Node × Int := (((twoErrorBody, 1) : Node × Nat) :: [], ifWithErrorNode, 0)

/-- Recorded triple for `errorNodeB` (nesting 1). -/
def twoErrorTripleB : Ctx × Node × Int :=
  (((ifWithErrorNode, 0) : Node × Nat) :: ((twoErrorBody, 1) : Node × Nat) :: [], errorNodeB, 1)

/-- Models `value switch { 1 => "one", _ => other ? "a" : "b" }`: a switch expression
whose arm contains a ternary. -/
def switchExprWithTernary : Node :=
  .mk "switch_expression" "" 2 15 6 9
    [.mk "identifier" "value" 2 15 2 20 [], tokenNode "switch",
     .mk "conditional_expression" "" 4 17 4 36
       [.mk "identifier" "other" 4 17 4 22 [], tokenNode "?",
        .mk "string_literal" "\"a\"" 4 25 4 28 [], tokenNode ":",
        .mk "string_literal" "\"b\"" 4 31 4 34 []]]

/-- Function body containing only the switch expression (at nesting 0). -/
def switchExprBody : Node := .mk "block" "" 1 0 7 1 [switchExprWithTernary]

/-- Body of a nested local function: `for (int i = 0; i < 10; i++) { }`. -/
def nestedLocalFunctionBody : Node :=
  .mk "block" "" 6 24 8 25 [.mk "for_statement" "" 7 28 7 58 [.mk "block" "" 7 57 7 58 []]]

/-- Models `void LocalFunction() { for (...) { } }`: a named local function. -/
def nestedLocalFunction : Node :=
  .mk "local_function_statement" "" 6 0 8 25
    [.mk "identifier" "LocalFunction" 6 29 6 42 [], nestedLocalFunctionBody]

/-- Body of `OuterMethod`: an `if` statement followed by the nested local
function declaration. -/
def outerMethodBody : Node :=
  .mk "block" "" 2 32 9 21
    [.mk "if_statement" "" 3 24 5 25 [.mk "block" "" 3 44 5 25 []],
     nestedLocalFunction]

/-- Models `void OuterMethod() { if (...) {...} void LocalFunction() {...} }`. -/
def outerMethod : Node :=
  .mk "method_declaration" "" 2 20 9 21
    [.mk "identifier" "OuterMethod" 2 32 2 43 [], outerMethodBody]

/-- A class wrapping `OuterMethod`. -/
def nestedFunctionTree : Node :=
  .mk "class_declaration" "" 1 16 10 17
    [tokenNode "class", .mk "identifier" "Test" 1 29 1 33 [], outerMethod]

/-- An interface method declaration with no body
(`void InterfaceMethod();`). -/
def interfaceMethod : Node :=
  .mk "method_declaration" "" 2 20 2 43
    [.mk "identifier" "InterfaceMethod" 2 25 2 40 [], tokenNode ";"]

/-- The interface containing only the bodyless method. -/
def interfaceTree : Node :=
  .mk "interface_declaration" "" 1 16 3 17
    [tokenNode "interface", .mk "identifier" "ITest" 1 33 1 38 [], interfaceMethod]

/-- Go: `a > 0 && b > 0` binary expression (operator found by child text). -/
def goAndCondition : Node :=
  .mk "binary_expression" "a > 0 && b > 0" 1 4 1 18
    [.mk "binary_expression" "a > 0" 1 4 1 9 [],
     .mk "op" "&&" 1 10 1 12 [],
     .mk "binary_expression" "b > 0" 1 13 1 18 []]

/-- Go: `if a > 0 && b > 0 { return 0 }`. -/
def goIfStatement : Node :=
  .mk "if_statement" "" 1 1 3 2 [tokenNode "if", goAndCondition, .mk "block" "" 1 19 3 2 []]

/-- Go function body wrapping the `if`. -/
def goFunctionBody : Node := .mk "block" "" 0 24 4 1 [goIfStatement]

/-- Models `func Max(a, b int) int { if a > 0 && b > 0 { return 0 } ... }`. -/
def goFunctionTree : Node :=
  .mk "source_file" "" 0 0 5 0
    [.mk "function_declaration" "" 0 0 4 1
      [tokenNode "func", .mk "identifier" "Max" 0 5 0 8 [],
       .mk "parameter_list" "(a, b int)" 0 8 0 18 [], goFunctionBody]]

/-- A trivial parser stub used where the parse result is irrelevant. -/
def emptyParse : String → Node := fun _ => .mk "source_file" "" 0 0 0 0 []

/-- The `binary && operator` detail of the Go example body, recorded at
nesting 1 with increment 1 (base weight only). -/
def goAndDetail : MetricsDetail :=
  { increment := 1, reason := "binary && operator", line := 1, column := 4, nesting := 1 }

/-- The normalized result the factory produces for the example tree
holding the `MultipleCatch` method. -/
def multipleCatchResult : FunctionMetrics :=
  { name := "MultipleCatch",
    complexity := 5,
    details :=
      [{ increment := 1, reason := "try statement", line := 4, column := 25, nesting := 0 },
       { increment := 2, reason := "catch clause", line := 7, column := 25, nesting := 1 },
       { increment := 2, reason := "catch clause", line := 9, column := 27, nesting := 1 }],
    startLine := 2, endLine := 11, startColumn := 20, endColumn := 21 }

/-- The first detail of `multipleCatchResult`. -/
def multipleCatchTryDetail : MetricsDetail :=
  { increment := 1, reason := "try statement", line := 4, column := 25, nesting := 0 }

/-- Inner `if (b) { }` of the nested-if example. -/
def innerIfStatement : Node := .mk "if_statement" "" 2 8 2 20 [.mk "block" "" 2 18 2 20 []]

/-- Block wrapping the inner if. -/
def innerIfBlock : Node := .mk "block" "" 1 11 3 5 [innerIfStatement]

/-- Outer `if (a) { if (b) { } }`. -/
def outerIfStatement : Node := .mk "if_statement" "" 1 4 3 5 [innerIfBlock]

/-- Function body `{ if (a) { if (b) { } } }`. -/
def ifInIfBody : Node := .mk "block" "" 0 0 4 1 [outerIfStatement]

/-- Recorded triple of the outer if (nesting 0). -/
def ifInIfTripleOuter : Ctx × Node × Int :=
  (((ifInIfBody, 0) : Node × Nat) :: [], outerIfStatement, 0)

/-- Recorded triple of the inner if (nesting 1). -/
def ifInIfTripleInner : Ctx × Node × Int :=
  (((innerIfBlock, 0) : Node × Nat) :: ((outerIfStatement, 0) : Node × Nat) ::
    ((ifInIfBody, 0) : Node × Nat) :: [], innerIfStatement, 1)

/-- The detail recorded for the outer if of `ifInIfBody`. -/
def ifInIfOuterDetail : MetricsDetail :=
  { increment := 1, reason := "if statement", line := 1, column := 4, nesting := 0 }

/-- The `if statement` detail of `outerMethodBody` (recorded at nesting 0). -/
def outerIfDetail : MetricsDetail :=
  { increment := 1, reason := "if statement", line := 3, column := 24, nesting := 0 }

/-- The (un-normalized) result the C# analyzer reports for the nested local
function itself. -/
def localFunctionResult : FunctionMetrics :=
  { name := "LocalFunction",
    complexity := 1,
    details := [{ increment := 1, reason := "for loop", line := 7, column := 28, nesting := 0 }],
    startLine := 6, endLine := 8, startColumn := 0, endColumn := 25 }

/-! ### Theorems -/

theorem Node.sizeOf_children_lt (n : Node) : sizeOf n.children < sizeOf n := by
  cases n with
  | mk t x a b c d cs => simp [Node.children]

example : testKw "if" '(' "  if (x)" = true := by decide
example : testKw "if" '(' "gif(x)" = false := by decide
example : testKw "for" '(' "foreach (x)" = false := by decide
example : testKw "try" '\x7b' "try \x7b" = true := by decide
example : countLogicalOps "a && b || c".data = 2 := by decide
example : hasTernaryPattern "a ? b : c".data = true := by decide
example : hasTernaryPattern "a ? b ? : ".data = true := by decide
example : hasDoubleColon "a::b".data = true := by decide
example : malformedTernPattern "x ? y : z" = true := by decide
example : malformedTernPattern "x ? y : ;" = true := by decide
example : malformedTernPattern "x ? y :;" = false := by decide
example : malformedTernPattern "? y : z" = false := by decide

namespace CSharpMetricsAnalyzer

mutual

/-- Characterization of the C# `visit`: the nesting counter is restored, the
details recorded are exactly `mkDetail` of the recorded triples (appended in
traversal order), and the complexity grows by the sum of their increments. -/
theorem cs_visit_spec : ∀ (ctx : Ctx) (node : Node) (st : AnalyzerState),
    visit ctx node st =
      { nesting := st.nesting,
        complexity := st.complexity +
          ((recordedNodes ctx node st.nesting).map
            (fun p => (mkDetail p).increment)).sum,
        details := st.details ++ (recordedNodes ctx node st.nesting).map mkDetail }
  | ctx, .mk ty txt sr sc er ec cs, st => by
    rw [visit, recordedNodes]
    by_cases hn : increasesNesting (Node.mk ty txt sr sc er ec cs) <;>
      by_cases hb : getComplexityIncrement ctx st.nesting (Node.mk ty txt sr sc er ec cs) > 0 <;>
        simp [hn, hb, cs_visitChildren_spec (Node.mk ty txt sr sc er ec cs) ctx 0 cs,
          mkDetail, List.sum_append, List.append_assoc, Node.startRow, Node.startCol,
          AnalyzerState.mk.injEq, add_assoc]

/-- Characterization of the child loop of the C# `visit`. -/
theorem cs_visitChildren_spec : ∀ (parent : Node) (ctx : Ctx) (i : Nat) (cs : List Node)
    (st : AnalyzerState),
    visitChildren parent ctx i cs st =
      { nesting := st.nesting,
        complexity := st.complexity +
          ((recordedChildren parent ctx i cs st.nesting).map
            (fun p => (mkDetail p).increment)).sum,
        details := st.details ++
          (recordedChildren parent ctx i cs st.nesting).map mkDetail }
  | parent, ctx, i, [], st => by
    rw [visitChildren, recordedChildren]
    simp
  | parent, ctx, i, child :: rest, st => by
    rw [visitChildren, recordedChildren]
    by_cases hf : isFunctionDeclaration child <;>
      simp [hf, cs_visit_spec ((parent, i) :: ctx) child st,
        cs_visitChildren_spec parent ctx (i + 1) rest,
        List.sum_append, List.append_assoc, AnalyzerState.mk.injEq, add_assoc]

end

end CSharpMetricsAnalyzer

namespace GoMetricsAnalyzer

mutual

/-- Characterization of the Go `visit`: the nesting counter is restored, the
details recorded are exactly `mkDetail` of the recorded pairs, and the
complexity grows by the sum of their increments. -/
theorem go_visit_spec : ∀ (node : Node) (st : AnalyzerState),
    visit node st =
      { nesting := st.nesting,
        complexity := st.complexity +
          ((recordedNodes node st.nesting).map
            (fun p => (mkDetail p).increment)).sum,
        details := st.details ++ (recordedNodes node st.nesting).map mkDetail }
  | .mk ty txt sr sc er ec cs, st => by
    rw [visit, recordedNodes]
    by_cases hn : increasesNesting (Node.mk ty txt sr sc er ec cs) <;>
      by_cases hb : getComplexityIncrement st.nesting (Node.mk ty txt sr sc er ec cs) > 0 <;>
        simp [hn, hb, go_visitChildren_spec cs, mkDetail, List.sum_append,
          List.append_assoc, Node.startRow, Node.startCol,
          AnalyzerState.mk.injEq, add_assoc]

/-- Characterization of the child loop of the Go `visit`. -/
theorem go_visitChildren_spec : ∀ (cs : List Node) (st : AnalyzerState),
    visitChildren cs st =
      { nesting := st.nesting,
        complexity := st.complexity +
          ((recordedChildren cs st.nesting).map
            (fun p => (mkDetail p).increment)).sum,
        details := st.details ++ (recordedChildren cs st.nesting).map mkDetail }
  | [], st => by
    rw [visitChildren, recordedChildren]
    simp
  | child :: rest, st => by
    rw [visitChildren, recordedChildren]
    by_cases hf : isFunctionDeclaration child <;>
      simp [hf, go_visit_spec child st, go_visitChildren_spec rest,
        List.sum_append, List.append_assoc, AnalyzerState.mk.injEq, add_assoc]

end

end GoMetricsAnalyzer




namespace CSharpMetricsAnalyzer

mutual

/-- Every triple recorded by the C# walk has a positive base increment and a
nesting level at least the starting one. -/
theorem cs_mem_recordedNodes : ∀ (ctx : Ctx) (node : Node) (k : Int) (p : Ctx × Node × Int),
    p ∈ recordedNodes ctx node k →
      0 < getComplexityIncrement p.1 p.2.2 p.2.1 ∧ k ≤ p.2.2
  | ctx, .mk ty txt sr sc er ec cs, k, p => by
    rw [recordedNodes]
    intro hp
    rcases List.mem_append.mp hp with h | h
    · by_cases hb : getComplexityIncrement ctx k (Node.mk ty txt sr sc er ec cs) > 0
      · rw [if_pos hb, List.mem_singleton] at h
        subst h
        exact ⟨hb, le_refl k⟩
      · rw [if_neg hb] at h
        simp at h
    · by_cases hn : increasesNesting (Node.mk ty txt sr sc er ec cs) <;>
        simp only [hn, ite_true, ite_false, if_true, if_false] at h
      · have := cs_mem_recordedChildren (Node.mk ty txt sr sc er ec cs) ctx 0 cs (k + 1) p h
        exact ⟨this.1, by omega⟩
      · exact cs_mem_recordedChildren (Node.mk ty txt sr sc er ec cs) ctx 0 cs k p h

/-- Child-loop version of `cs_mem_recordedNodes`. -/
theorem cs_mem_recordedChildren : ∀ (parent : Node) (ctx : Ctx) (i : Nat) (cs : List Node)
    (k : Int) (p : Ctx × Node × Int),
    p ∈ recordedChildren parent ctx i cs k →
      0 < getComplexityIncrement p.1 p.2.2 p.2.1 ∧ k ≤ p.2.2
  | parent, ctx, i, [], k, p => by
    rw [recordedChildren]
    simp
  | parent, ctx, i, child :: rest, k, p => by
    rw [recordedChildren]
    intro hp
    rcases List.mem_append.mp hp with h | h
    · by_cases hf : isFunctionDeclaration child <;> simp only [hf, ite_true, ite_false] at h
      · simp at h
      · exact cs_mem_recordedNodes ((parent, i) :: ctx) child k p h
    · exact cs_mem_recordedChildren parent ctx (i + 1) rest k p h

end

mutual

/-- Every triple recorded by the C# walk lies on a path from the body that
never enters a nested function declaration. -/
theorem cs_skipWalk_recordedNodes : ∀ (ctx : Ctx) (node : Node) (k : Int)
    (p : Ctx × Node × Int), p ∈ recordedNodes ctx node k → SkipWalk node p.2.1
  | ctx, .mk ty txt sr sc er ec cs, k, p => by
    rw [recordedNodes]
    intro hp
    rcases List.mem_append.mp hp with h | h
    · by_cases hb : getComplexityIncrement ctx k (Node.mk ty txt sr sc er ec cs) > 0
      · rw [if_pos hb, List.mem_singleton] at h
        subst h
        exact SkipWalk.refl _
      · rw [if_neg hb] at h
        simp at h
    · have hc : ∃ c ∈ cs, isFunctionDeclaration c = false ∧ SkipWalk c p.2.1 := by
        by_cases hn : increasesNesting (Node.mk ty txt sr sc er ec cs) <;>
          simp only [hn, ite_true, ite_false, if_true, if_false] at h
        · exact cs_skipWalk_recordedChildren (Node.mk ty txt sr sc er ec cs) ctx 0 cs (k + 1) p h
        · exact cs_skipWalk_recordedChildren (Node.mk ty txt sr sc er ec cs) ctx 0 cs k p h
      rcases hc with ⟨c, hmem, hdecl, hwalk⟩
      exact SkipWalk.child (by simpa [Node.children] using hmem) hdecl hwalk

/-- Child-loop version of `cs_skipWalk_recordedNodes`. -/
theorem cs_skipWalk_recordedChildren : ∀ (parent : Node) (ctx : Ctx) (i : Nat)
    (cs : List Node) (k : Int) (p : Ctx × Node × Int),
    p ∈ recordedChildren parent ctx i cs k →
      ∃ c ∈ cs, isFunctionDeclaration c = false ∧ SkipWalk c p.2.1
  | parent, ctx, i, [], k, p => by
    rw [recordedChildren]
    simp
  | parent, ctx, i, child :: rest, k, p => by
    rw [recordedChildren]
    intro hp
    rcases List.mem_append.mp hp with h | h
    · by_cases hf : isFunctionDeclaration child <;> simp only [hf, ite_true, ite_false] at h
      · simp at h
      · have hf2 : isFunctionDeclaration child = false := by simpa using hf
        exact ⟨child, List.mem_cons_self child rest, hf2,
          cs_skipWalk_recordedNodes ((parent, i) :: ctx) child k p h⟩
    · rcases cs_skipWalk_recordedChildren parent ctx (i + 1) rest k p h with ⟨c, hmem, hd, hw⟩
      exact ⟨c, List.mem_cons_of_mem child hmem, hd, hw⟩

end

end CSharpMetricsAnalyzer

namespace GoMetricsAnalyzer

mutual

/-- Every pair recorded by the Go walk has a positive increment and a nesting
level at least the starting one. -/
theorem go_mem_recordedNodes : ∀ (node : Node) (k : Int) (p : Node × Int),
    p ∈ recordedNodes node k → 0 < getComplexityIncrement p.2 p.1 ∧ k ≤ p.2
  | .mk ty txt sr sc er ec cs, k, p => by
    rw [recordedNodes]
    intro hp
    rcases List.mem_append.mp hp with h | h
    · by_cases hb : getComplexityIncrement k (Node.mk ty txt sr sc er ec cs) > 0
      · rw [if_pos hb, List.mem_singleton] at h
        subst h
        exact ⟨hb, le_refl k⟩
      · rw [if_neg hb] at h
        simp at h
    · by_cases hn : increasesNesting (Node.mk ty txt sr sc er ec cs) <;>
        simp only [hn, ite_true, ite_false, if_true, if_false] at h
      · have := go_mem_recordedChildren cs (k + 1) p h
        exact ⟨this.1, by omega⟩
      · exact go_mem_recordedChildren cs k p h

/-- Child-loop version of `go_mem_recordedNodes`. -/
theorem go_mem_recordedChildren : ∀ (cs : List Node) (k : Int) (p : Node × Int),
    p ∈ recordedChildren cs k → 0 < getComplexityIncrement p.2 p.1 ∧ k ≤ p.2
  | [], k, p => by
    rw [recordedChildren]
    simp
  | child :: rest, k, p => by
    rw [recordedChildren]
    intro hp
    rcases List.mem_append.mp hp with h | h
    · by_cases hf : isFunctionDeclaration child <;> simp only [hf, ite_true, ite_false] at h
      · simp at h
      · exact go_mem_recordedNodes child k p h
    · exact go_mem_recordedChildren rest k p h

end

mutual

/-- Every pair recorded by the Go walk lies on a path from the body that never
enters a nested function declaration. -/
theorem go_skipWalk_recordedNodes : ∀ (node : Node) (k : Int) (p : Node × Int),
    p ∈ recordedNodes node k → SkipWalk node p.1
  | .mk ty txt sr sc er ec cs, k, p => by
    rw [recordedNodes]
    intro hp
    rcases List.mem_append.mp hp with h | h
    · by_cases hb : getComplexityIncrement k (Node.mk ty txt sr sc er ec cs) > 0
      · rw [if_pos hb, List.mem_singleton] at h
        subst h
        exact SkipWalk.refl _
      · rw [if_neg hb] at h
        simp at h
    · have hc : ∃ c ∈ cs, isFunctionDeclaration c = false ∧ SkipWalk c p.1 := by
        by_cases hn : increasesNesting (Node.mk ty txt sr sc er ec cs) <;>
          simp only [hn, ite_true, ite_false, if_true, if_false] at h
        · exact go_skipWalk_recordedChildren cs (k + 1) p h
        · exact go_skipWalk_recordedChildren cs k p h
      rcases hc with ⟨c, hmem, hdecl, hwalk⟩
      exact SkipWalk.child (by simpa [Node.children] using hmem) hdecl hwalk

/-- Child-loop version of `go_skipWalk_recordedNodes`. -/
theorem go_skipWalk_recordedChildren : ∀ (cs : List Node) (k : Int) (p : Node × Int),
    p ∈ recordedChildren cs k →
      ∃ c ∈ cs, isFunctionDeclaration c = false ∧ SkipWalk c p.1
  | [], k, p => by
    rw [recordedChildren]
    simp
  | child :: rest, k, p => by
    rw [recordedChildren]
    intro hp
    rcases List.mem_append.mp hp with h | h
    · by_cases hf : isFunctionDeclaration child <;> simp only [hf, ite_true, ite_false] at h
      · simp at h
      · have hf2 : isFunctionDeclaration child = false := by simpa using hf
        exact ⟨child, List.mem_cons_self child rest, hf2,
          go_skipWalk_recordedNodes child k p h⟩
    · rcases go_skipWalk_recordedChildren rest k p h with ⟨c, hmem, hd, hw⟩
      exact ⟨c, List.mem_cons_of_mem child hmem, hd, hw⟩

end

end GoMetricsAnalyzer

/-- A concatenation whose first part is nonempty is a nonempty string. -/
theorem append3_ne_empty (a b c : String) (h : 0 < a.length) : a ++ b ++ c ≠ "" := by
  intro hc
  have hlen := congrArg String.length hc
  simp [String.length_append] at hlen
  omega

namespace CSharpMetricsAnalyzer

/-- Error-node recovery reasons are never empty. -/
theorem cs_reasonFromErrorNode_ne_empty (ctx : Ctx) (node : Node) :
    getComplexityReasonFromErrorNode ctx node ≠ "" := by
  unfold getComplexityReasonFromErrorNode
  repeat' split
  all_goals decide

/-- Malformed-declaration recovery reasons are never empty. -/
theorem cs_reasonFromMalformed_ne_empty (ctx : Ctx) (node : Node) :
    getComplexityReasonFromMalformedDeclaration ctx node ≠ "" := by
  unfold getComplexityReasonFromMalformedDeclaration
  repeat' split
  all_goals decide

/-- The C# reason string is never empty. -/
theorem cs_reason_ne_empty (ctx : Ctx) (node : Node) :
    getComplexityReason ctx node ≠ "" := by
  unfold getComplexityReason
  split
  all_goals try decide
  · split
    · exact append3_ne_empty _ _ _ (by decide)
    · decide
  · exact cs_reasonFromErrorNode_ne_empty ctx node
  · exact cs_reasonFromMalformed_ne_empty ctx node
  · exact cs_reasonFromMalformed_ne_empty ctx node

/-- For rule-table kinds the base increment is 0 or 1 (never text-dependent). -/
theorem cs_ruleTable_base_zero_or_one (ctx : Ctx) (k : Int) (node : Node)
    (hty : node.ty ∈ ruleTableKinds) :
    getComplexityIncrement ctx k node = 0 ∨ getComplexityIncrement ctx k node = 1 := by
  unfold getComplexityIncrement
  split
  all_goals try (right; rfl)
  all_goals try (left; rfl)
  all_goals try (split <;> simp)
  all_goals try simp_all [ruleTableKinds]
  all_goals tauto

end CSharpMetricsAnalyzer

namespace GoMetricsAnalyzer

/-- The Go reason string is never empty. -/
theorem go_reason_ne_empty (node : Node) : getComplexityReason node ≠ "" := by
  unfold getComplexityReason
  split
  all_goals try decide
  all_goals try (split <;> decide)
  · split
    · exact append3_ne_empty _ _ _ (by decide)
    · decide

end GoMetricsAnalyzer

namespace CSharpMetricsAnalyzer

mutual

/-- Everything the C# outer traversal emits comes from `analyzeFunction` on
some function declaration. -/
theorem cs_mem_collect : ∀ (ctx : Ctx) (node : Node) (f : FunctionMetrics),
    f ∈ collect ctx node →
      ∃ c nd, isFunctionDeclaration nd = true ∧ analyzeFunction c nd = some f
  | ctx, .mk ty txt sr sc er ec cs, f => by
    rw [collect]
    intro hf
    rcases List.mem_append.mp hf with h | h
    · by_cases hd : isFunctionDeclaration (Node.mk ty txt sr sc er ec cs) <;>
        simp only [hd, ite_true, ite_false] at h
      · exact ⟨ctx, Node.mk ty txt sr sc er ec cs, hd, by simpa using h⟩
      · simp at h
    · exact cs_mem_collectChildren (Node.mk ty txt sr sc er ec cs) ctx 0 cs f h

/-- Child-loop version of `cs_mem_collect`. -/
theorem cs_mem_collectChildren : ∀ (parent : Node) (ctx : Ctx) (i : Nat)
    (cs : List Node) (f : FunctionMetrics),
    f ∈ collectChildren parent ctx i cs →
      ∃ c nd, isFunctionDeclaration nd = true ∧ analyzeFunction c nd = some f
  | parent, ctx, i, [], f => by
    rw [collectChildren]
    simp
  | parent, ctx, i, child :: rest, f => by
    rw [collectChildren]
    intro hf
    rcases List.mem_append.mp hf with h | h
    · exact cs_mem_collect ((parent, i) :: ctx) child f h
    · exact cs_mem_collectChildren parent ctx (i + 1) rest f h

end

/-- The results of a child subtree are among the results of the child loop. -/
theorem cs_mem_collectChildren_of_getElem :
    ∀ (parent : Node) (ctx : Ctx) (i j : Nat) (cs : List Node) (child : Node),
    cs[j]? = some child → ∀ x ∈ collect ((parent, i + j) :: ctx) child,
      x ∈ collectChildren parent ctx i cs
  | parent, ctx, i, j, [], child => by simp
  | parent, ctx, i, 0, c :: rest, child => by
    intro hget x hx
    rw [collectChildren]
    apply List.mem_append_left
    simp at hget
    subst hget
    simpa using hx
  | parent, ctx, i, j + 1, c :: rest, child => by
    intro hget x hx
    rw [collectChildren]
    apply List.mem_append_right
    refine cs_mem_collectChildren_of_getElem parent ctx (i + 1) j rest child
      (by simpa using hget) x ?_
    have harith : i + 1 + j = i + (j + 1) := by omega
    rw [harith]
    exact hx

/-- Every function declaration in the tree with a body yields its result in
the outer traversal's output (the nested declaration is reported as its own
independent result). -/
theorem cs_collect_complete : ∀ {ctx : Ctx} {n : Node} {c : Ctx} {d : Node},
    TreePath ctx n c d → isFunctionDeclaration d = true →
    ∀ {f : FunctionMetrics}, analyzeFunction c d = some f → f ∈ collect ctx n := by
  intro ctx n c d hpath
  induction hpath with
  | refl ctx n =>
    intro hd f hf
    cases n with
    | mk ty txt sr sc er ec cs =>
      rw [collect]
      apply List.mem_append_left
      simp [hd, hf]
  | step i hget _ ih =>
    intro hd f hf
    have hx := ih hd hf
    rename_i ctx n c d child _
    cases n with
    | mk ty txt sr sc er ec cs =>
      rw [collect]
      apply List.mem_append_right
      refine cs_mem_collectChildren_of_getElem (Node.mk ty txt sr sc er ec cs) ctx 0 i cs child
        (by simpa [Node.children] using hget) f ?_
      simpa using hx

/-- Models `analyzeFunction` returns nothing exactly when no body is found. -/
theorem cs_analyzeFunction_eq_none_iff (ctx : Ctx) (node : Node) :
    analyzeFunction ctx node = none ↔ getFunctionBody ctx node = none := by
  rcases hb : getFunctionBody ctx node with _ | ⟨bc, b⟩ <;>
    simp [analyzeFunction, hb]

/-- A declaration whose analysis yields nothing contributes no entry of its
own: the traversal just continues with its children. -/
theorem cs_collect_of_analyzeFunction_none (ctx : Ctx) (node : Node)
    (h : analyzeFunction ctx node = none) :
    collect ctx node = collectChildren node ctx 0 node.children := by
  cases node with
  | mk ty txt sr sc er ec cs =>
    rw [collect]
    by_cases hd : isFunctionDeclaration (Node.mk ty txt sr sc er ec cs) <;>
      simp [hd, h, Node.children]

/-- Every function the C# analyzer reports satisfies the data-model
invariants: complexity is the sum of the detail increments, and each detail
has a positive increment, a non-empty reason and non-negative nesting. -/
theorem cs_analyzeFunctions_invariant (root : Node) (f : FunctionMetrics)
    (hf : f ∈ analyzeFunctions root) :
    f.complexity = (f.details.map MetricsDetail.increment).sum ∧
    ∀ d ∈ f.details, 0 < d.increment ∧ d.reason ≠ "" ∧ 0 ≤ d.nesting := by
  obtain ⟨c, nd, _, ha⟩ := cs_mem_collect [] root f hf
  unfold analyzeFunction at ha
  rcases hb : getFunctionBody c nd with _ | ⟨bc, b⟩ <;> rw [hb] at ha
  · simp at ha
  · simp only [Option.some.injEq] at ha
    subst ha
    rw [cs_visit_spec] at *
    constructor
    · simp [List.map_map]
      rfl
    · intro d hd
      simp only [List.nil_append, List.mem_map] at hd
      obtain ⟨p, hp, hpd⟩ := hd
      subst hpd
      have hmem := cs_mem_recordedNodes bc b 0 p hp
      refine ⟨by simp [mkDetail]; omega, ?_, by simp [mkDetail]; omega⟩
      simp [mkDetail]
      exact cs_reason_ne_empty p.1 p.2.1

end CSharpMetricsAnalyzer

namespace GoMetricsAnalyzer

mutual

/-- Everything the Go outer traversal emits comes from `analyzeFunction` on
some function declaration. -/
theorem go_mem_collect : ∀ (node : Node) (f : FunctionMetrics),
    f ∈ collect node →
      ∃ nd, isFunctionDeclaration nd = true ∧ analyzeFunction nd = some f
  | .mk ty txt sr sc er ec cs, f => by
    rw [collect]
    intro hf
    rcases List.mem_append.mp hf with h | h
    · by_cases hd : isFunctionDeclaration (Node.mk ty txt sr sc er ec cs) <;>
        simp only [hd, ite_true, ite_false] at h
      · exact ⟨Node.mk ty txt sr sc er ec cs, hd, by simpa using h⟩
      · simp at h
    · exact go_mem_collectChildren cs f h

/-- Child-loop version of `go_mem_collect`. -/
theorem go_mem_collectChildren : ∀ (cs : List Node) (f : FunctionMetrics),
    f ∈ collectChildren cs →
      ∃ nd, isFunctionDeclaration nd = true ∧ analyzeFunction nd = some f
  | [], f => by
    rw [collectChildren]
    simp
  | child :: rest, f => by
    rw [collectChildren]
    intro hf
    rcases List.mem_append.mp hf with h | h
    · exact go_mem_collect child f h
    · exact go_mem_collectChildren rest f h

end

/-- The results of a child subtree are among the results of the child loop. -/
theorem go_mem_collectChildren_of_mem :
    ∀ (cs : List Node) (child : Node), child ∈ cs →
      ∀ x ∈ collect child, x ∈ collectChildren cs
  | [], child => by simp
  | c :: rest, child => by
    intro hmem x hx
    rw [collectChildren]
    rcases List.mem_cons.mp hmem with h | h
    · subst h
      exact List.mem_append_left _ hx
    · exact List.mem_append_right _ (go_mem_collectChildren_of_mem rest child h x hx)

/-- Every function declaration in the tree with a body yields its result in
the outer traversal's output. -/
theorem go_collect_complete : ∀ {n d : Node},
    TreePath n d → isFunctionDeclaration d = true →
    ∀ {f : FunctionMetrics}, analyzeFunction d = some f → f ∈ collect n := by
  intro n d hpath
  induction hpath with
  | refl n =>
    intro hd f hf
    cases n with
    | mk ty txt sr sc er ec cs =>
      rw [collect]
      apply List.mem_append_left
      simp [hd, hf]
  | step hmem _ ih =>
    intro hd f hf
    have hx := ih hd hf
    rename_i n child d _
    cases n with
    | mk ty txt sr sc er ec cs =>
      rw [collect]
      apply List.mem_append_right
      exact go_mem_collectChildren_of_mem cs child (by simpa [Node.children] using hmem) f hx

/-- Models `analyzeFunction` returns nothing exactly when no body is found. -/
theorem go_analyzeFunction_eq_none_iff (node : Node) :
    analyzeFunction node = none ↔ getFunctionBody node = none := by
  rcases hb : getFunctionBody node with _ | b <;> simp [analyzeFunction, hb]

/-- A declaration whose analysis yields nothing contributes no entry of its
own. -/
theorem go_collect_of_analyzeFunction_none (node : Node)
    (h : analyzeFunction node = none) :
    collect node = collectChildren node.children := by
  cases node with
  | mk ty txt sr sc er ec cs =>
    rw [collect]
    by_cases hd : isFunctionDeclaration (Node.mk ty txt sr sc er ec cs) <;>
      simp [hd, h, Node.children]

/-- Every function the Go analyzer reports satisfies the data-model
invariants. -/
theorem go_analyzeFunctions_invariant (root : Node) (f : FunctionMetrics)
    (hf : f ∈ analyzeFunctions root) :
    f.complexity = (f.details.map MetricsDetail.increment).sum ∧
    ∀ d ∈ f.details, 0 < d.increment ∧ d.reason ≠ "" ∧ 0 ≤ d.nesting := by
  obtain ⟨nd, _, ha⟩ := go_mem_collect root f hf
  unfold analyzeFunction at ha
  rcases hb : getFunctionBody nd with _ | b <;> rw [hb] at ha
  · simp at ha
  · simp only [Option.some.injEq] at ha
    subst ha
    rw [go_visit_spec] at *
    constructor
    · simp [List.map_map]
      rfl
    · intro d hd
      simp only [List.nil_append, List.mem_map] at hd
      obtain ⟨p, hp, hpd⟩ := hd
      subst hpd
      have hmem := go_mem_recordedNodes b 0 p hp
      refine ⟨by simp [mkDetail]; omega, ?_, by simp [mkDetail]; omega⟩
      simp [mkDetail]
      exact go_reason_ne_empty p.1

end GoMetricsAnalyzer

namespace MetricsAnalyzerFactory

/-- Dispatch behavior of `analyzeFile`: the two supported ids go to their
wrappers, anything else yields the empty list. -/
theorem analyzeFile_eq (csParse goParse : String → Node) (sourceText : String)
    (languageId : Option String) :
    analyzeFile csParse goParse sourceText languageId =
      if languageId = some "csharp" then createCSharpAnalyzer csParse sourceText
      else if languageId = some "go" then createGoAnalyzer goParse sourceText
      else [] := by
  rcases languageId with _ | l
  · simp [analyzeFile]
  · by_cases h1 : l = "csharp"
    · subst h1
      simp [analyzeFile, languageAnalyzers]
    · by_cases h2 : l = "go"
      · subst h2
        simp [analyzeFile, languageAnalyzers]
      · have hc : ("csharp" = l) = False := by
          simp
          exact fun h => h1 h.symm
        have hg : ("go" = l) = False := by
          simp
          exact fun h => h2 h.symm
        simp [analyzeFile, languageAnalyzers, List.find?, hc, hg, h1, h2]

end MetricsAnalyzerFactory

/-! ### Claim theorems -/

/-- C7: for every source text and every language id that is not a recognized
supported language (empty string and null/undefined included, the latter
modelled as `none`), `MetricsAnalyzerFactory.analyzeFile` returns the empty
sequence; the embedding is a total function, so no exception is possible. -/
theorem c7_unsupported_language_empty (csParse goParse : String → Node)
    (sourceText : String) (languageId : Option String)
    (h1 : languageId ≠ some "csharp") (h2 : languageId ≠ some "go") :
    MetricsAnalyzerFactory.analyzeFile csParse goParse sourceText languageId = [] := by
  rw [MetricsAnalyzerFactory.analyzeFile_eq]
  simp [h1, h2]

/-- Witness for C7 at the ids `"python"`, `""` and null/undefined. -/
theorem c7_unsupported_language_empty_witness :
    MetricsAnalyzerFactory.analyzeFile emptyParse emptyParse "x = 1" (some "python") = [] ∧
    MetricsAnalyzerFactory.analyzeFile emptyParse emptyParse "x = 1" (some "") = [] ∧
    MetricsAnalyzerFactory.analyzeFile emptyParse emptyParse "x = 1" none = [] :=
  ⟨c7_unsupported_language_empty emptyParse emptyParse "x = 1" (some "python")
      (by decide) (by decide),
   c7_unsupported_language_empty emptyParse emptyParse "x = 1" (some "")
      (by decide) (by decide),
   c7_unsupported_language_empty emptyParse emptyParse "x = 1" none
      (by decide) (by decide)⟩

/-- C10: the supported language ids are exactly `["csharp", "go"]` in that
order, `analyzeFile` dispatches to the respective wrapper exactly for those
two ids, and every other id yields the empty result. -/
theorem c10_supported_languages (csParse goParse : String → Node) :
    MetricsAnalyzerFactory.getSupportedLanguages csParse goParse = ["csharp", "go"] ∧
    (∀ sourceText,
      MetricsAnalyzerFactory.analyzeFile csParse goParse sourceText (some "csharp") =
        createCSharpAnalyzer csParse sourceText) ∧
    (∀ sourceText,
      MetricsAnalyzerFactory.analyzeFile csParse goParse sourceText (some "go") =
        createGoAnalyzer goParse sourceText) ∧
    (∀ sourceText languageId, languageId ≠ some "csharp" → languageId ≠ some "go" →
      MetricsAnalyzerFactory.analyzeFile csParse goParse sourceText languageId = []) := by
  refine ⟨rfl, fun s => ?_, fun s => ?_, fun s lid h1 h2 => ?_⟩
  · rw [MetricsAnalyzerFactory.analyzeFile_eq]
    simp
  · rw [MetricsAnalyzerFactory.analyzeFile_eq]
    simp
  · rw [MetricsAnalyzerFactory.analyzeFile_eq]
    simp [h1, h2]

/-- Witness for C10 with concrete parsers, source and the id `"ruby"`. -/
theorem c10_supported_languages_witness :
    MetricsAnalyzerFactory.getSupportedLanguages emptyParse emptyParse = ["csharp", "go"] ∧
    MetricsAnalyzerFactory.analyzeFile emptyParse emptyParse "s" (some "csharp") =
      createCSharpAnalyzer emptyParse "s" ∧
    MetricsAnalyzerFactory.analyzeFile emptyParse emptyParse "s" (some "go") =
      createGoAnalyzer emptyParse "s" ∧
    MetricsAnalyzerFactory.analyzeFile emptyParse emptyParse "s" (some "ruby") = [] :=
  ⟨(c10_supported_languages emptyParse emptyParse).1,
   (c10_supported_languages emptyParse emptyParse).2.1 "s",
   (c10_supported_languages emptyParse emptyParse).2.2.1 "s",
   (c10_supported_languages emptyParse emptyParse).2.2.2 "s" (some "ruby")
      (by decide) (by decide)⟩

/-- C6: both factory wrappers map the per-language result with
`normalizeFunctionMetrics`, which adds exactly 1 to every detail's line and
column and leaves the name, complexity, the details' increment, reason and
nesting, and the function's start/end line/column unchanged, for every input
value. -/
theorem c6_normalizer_shifts_positions :
    (∀ (csParse : String → Node) (sourceText : String),
      createCSharpAnalyzer csParse sourceText =
        (CSharpMetricsAnalyzer.analyzeFile csParse sourceText).map normalizeFunctionMetrics) ∧
    (∀ (goParse : String → Node) (sourceText : String),
      createGoAnalyzer goParse sourceText =
        (GoMetricsAnalyzer.analyzeFile goParse sourceText).map normalizeFunctionMetrics) ∧
    (∀ f : FunctionMetrics,
      (normalizeFunctionMetrics f).name = f.name ∧
      (normalizeFunctionMetrics f).complexity = f.complexity ∧
      (normalizeFunctionMetrics f).startLine = f.startLine ∧
      (normalizeFunctionMetrics f).endLine = f.endLine ∧
      (normalizeFunctionMetrics f).startColumn = f.startColumn ∧
      (normalizeFunctionMetrics f).endColumn = f.endColumn ∧
      (normalizeFunctionMetrics f).details = f.details.map normalizeDetail) ∧
    (∀ d : MetricsDetail,
      (normalizeDetail d).line = d.line + 1 ∧
      (normalizeDetail d).column = d.column + 1 ∧
      (normalizeDetail d).increment = d.increment ∧
      (normalizeDetail d).reason = d.reason ∧
      (normalizeDetail d).nesting = d.nesting) :=
  ⟨fun _ _ => rfl, fun _ _ => rfl,
   fun _ => ⟨rfl, rfl, rfl, rfl, rfl, rfl, rfl⟩,
   fun _ => ⟨rfl, rfl, rfl, rfl, rfl⟩⟩

/-- C8: a located function-like declaration whose body cannot be found yields
no `FunctionMetrics` entry: `analyzeFunction` returns nothing, and the
traversal emits no entry for that declaration (it just continues with the
children), for both languages. -/
theorem c8_bodyless_declaration_skipped :
    (∀ (ctx : Ctx) (node : Node),
      CSharpMetricsAnalyzer.getFunctionBody ctx node = none →
      CSharpMetricsAnalyzer.analyzeFunction ctx node = none) ∧
    (∀ (ctx : Ctx) (node : Node),
      CSharpMetricsAnalyzer.analyzeFunction ctx node = none →
      CSharpMetricsAnalyzer.collect ctx node =
        CSharpMetricsAnalyzer.collectChildren node ctx 0 node.children) ∧
    (∀ node : Node,
      GoMetricsAnalyzer.getFunctionBody node = none →
      GoMetricsAnalyzer.analyzeFunction node = none) ∧
    (∀ node : Node,
      GoMetricsAnalyzer.analyzeFunction node = none →
      GoMetricsAnalyzer.collect node = GoMetricsAnalyzer.collectChildren node.children) :=
  ⟨fun ctx node h => (CSharpMetricsAnalyzer.cs_analyzeFunction_eq_none_iff ctx node).mpr h,
   fun ctx node h => CSharpMetricsAnalyzer.cs_collect_of_analyzeFunction_none ctx node h,
   fun node h => (GoMetricsAnalyzer.go_analyzeFunction_eq_none_iff node).mpr h,
   fun node h => GoMetricsAnalyzer.go_collect_of_analyzeFunction_none node h⟩

/-- Witness for C8 at a concrete bodyless interface method: it is omitted from
the whole-tree result. -/
theorem c8_bodyless_declaration_skipped_witness :
    CSharpMetricsAnalyzer.getFunctionBody [(interfaceTree, 2)] interfaceMethod = none ∧
    CSharpMetricsAnalyzer.analyzeFunction [(interfaceTree, 2)] interfaceMethod = none ∧
    CSharpMetricsAnalyzer.analyzeFunctions interfaceTree = [] :=
  ⟨rfl,
   c8_bodyless_declaration_skipped.1 [(interfaceTree, 2)] interfaceMethod rfl,
   by decide⟩

/-- C2: every detail the Go scorer records has increment equal to the
construct's base increment alone (`GoMetricsAnalyzer.getComplexityIncrement`
at the nesting level current when the construct is visited), with no nesting
addend, for every function body, start state and nesting level. -/
theorem c2_go_increment_base_only (body : Node) (st : AnalyzerState) (d : MetricsDetail)
    (hd : d ∈ (GoMetricsAnalyzer.visit body st).details) :
    d ∈ st.details ∨
    ∃ p ∈ GoMetricsAnalyzer.recordedNodes body st.nesting,
      d = GoMetricsAnalyzer.mkDetail p ∧
      d.increment = GoMetricsAnalyzer.getComplexityIncrement p.2 p.1 ∧
      d.nesting = p.2 := by
  rw [GoMetricsAnalyzer.go_visit_spec] at hd
  rcases List.mem_append.mp hd with h | h
  · exact Or.inl h
  · obtain ⟨p, hp, hpd⟩ := List.mem_map.mp h
    subst hpd
    exact Or.inr ⟨p, hp, rfl, rfl, rfl⟩

/-- Witness for C2 at the `&&` detail of a concrete Go body: it is recorded at
nesting 1 but its increment is the base weight 1, not 2. -/
theorem c2_go_increment_base_only_witness :
    goAndDetail ∈ (AnalyzerState.mk 0 0 []).details ∨
    ∃ p ∈ GoMetricsAnalyzer.recordedNodes goFunctionBody (AnalyzerState.mk 0 0 []).nesting,
      goAndDetail = GoMetricsAnalyzer.mkDetail p ∧
      goAndDetail.increment = GoMetricsAnalyzer.getComplexityIncrement p.2 p.1 ∧
      goAndDetail.nesting = p.2 :=
  c2_go_increment_base_only goFunctionBody (AnalyzerState.mk 0 0 []) goAndDetail (by decide)

/-- C9: every detail of every function returned by the factory's `analyzeFile`
(after normalization) has a positive increment, a non-empty reason,
non-negative nesting and 1-based line and column, and the function's
complexity is the sum of its details' increments. -/
theorem c9_detail_invariants (csParse goParse : String → Node) (sourceText : String)
    (languageId : Option String) (f : FunctionMetrics) (d : MetricsDetail)
    (hf : f ∈ MetricsAnalyzerFactory.analyzeFile csParse goParse sourceText languageId)
    (hd : d ∈ f.details) :
    0 < d.increment ∧ d.reason ≠ "" ∧ 0 ≤ d.nesting ∧ 1 ≤ d.line ∧ 1 ≤ d.column ∧
    f.complexity = (f.details.map MetricsDetail.increment).sum := by
  rw [MetricsAnalyzerFactory.analyzeFile_eq] at hf
  by_cases h1 : languageId = some "csharp"
  · rw [if_pos h1] at hf
    simp only [createCSharpAnalyzer] at hf
    obtain ⟨g, hg, hfg⟩ := List.mem_map.mp hf
    subst hfg
    have hinv := CSharpMetricsAnalyzer.cs_analyzeFunctions_invariant (csParse sourceText) g hg
    simp only [normalizeFunctionMetrics] at hd
    obtain ⟨d0, hd0, hdd⟩ := List.mem_map.mp hd
    subst hdd
    have hd0inv := hinv.2 d0 hd0
    refine ⟨hd0inv.1, hd0inv.2.1, hd0inv.2.2,
      by simp [normalizeDetail], by simp [normalizeDetail], ?_⟩
    simp only [normalizeFunctionMetrics, normalizeDetail, List.map_map, Function.comp]
    exact hinv.1
  · rw [if_neg h1] at hf
    by_cases h2 : languageId = some "go"
    · rw [if_pos h2] at hf
      simp only [createGoAnalyzer] at hf
      obtain ⟨g, hg, hfg⟩ := List.mem_map.mp hf
      subst hfg
      have hinv := GoMetricsAnalyzer.go_analyzeFunctions_invariant (goParse sourceText) g hg
      simp only [normalizeFunctionMetrics] at hd
      obtain ⟨d0, hd0, hdd⟩ := List.mem_map.mp hd
      subst hdd
      have hd0inv := hinv.2 d0 hd0
      refine ⟨hd0inv.1, hd0inv.2.1, hd0inv.2.2,
        by simp [normalizeDetail], by simp [normalizeDetail], ?_⟩
      simp only [normalizeFunctionMetrics, normalizeDetail, List.map_map, Function.comp]
      exact hinv.1
    · rw [if_neg h2] at hf
      simp at hf

/-- Witness for C9 at the first detail of a concrete factory result. -/
theorem c9_detail_invariants_witness :
    0 < multipleCatchTryDetail.increment ∧
    multipleCatchTryDetail.reason ≠ "" ∧
    0 ≤ multipleCatchTryDetail.nesting ∧
    1 ≤ multipleCatchTryDetail.line ∧
    1 ≤ multipleCatchTryDetail.column ∧
    multipleCatchResult.complexity =
      (multipleCatchResult.details.map MetricsDetail.increment).sum :=
  c9_detail_invariants (fun _ => tryTwoCatchTree) emptyParse
    "class Test - try with two catch clauses" (some "csharp")
    multipleCatchResult multipleCatchTryDetail
    (by decide) (by decide)

/-- C1 (amended): every detail the C# scorer records has increment equal to
the construct's base increment plus the nesting level current when the
construct is visited; and for two recorded constructs of the same rule-table
kind (the kinds of §4.2's Language A table — excluding the parser-error and
malformed-declaration recovery kinds, whose base weight is text-dependent) at
nesting levels `k1 < k2`, the increment at `k2` exceeds the one at `k1` by
exactly `k2 - k1`. -/
theorem c1_csharp_increment_formula :
    (∀ (ctx : Ctx) (body : Node) (st : AnalyzerState) (d : MetricsDetail),
      d ∈ (CSharpMetricsAnalyzer.visit ctx body st).details → d ∈ st.details ∨
      ∃ p ∈ CSharpMetricsAnalyzer.recordedNodes ctx body st.nesting,
        d = CSharpMetricsAnalyzer.mkDetail p ∧
        d.increment = CSharpMetricsAnalyzer.getComplexityIncrement p.1 p.2.2 p.2.1 + p.2.2 ∧
        d.nesting = p.2.2 ∧
        0 < CSharpMetricsAnalyzer.getComplexityIncrement p.1 p.2.2 p.2.1) ∧
    (∀ (ctx : Ctx) (body : Node) (k : Int) (p q : Ctx × Node × Int),
      p ∈ CSharpMetricsAnalyzer.recordedNodes ctx body k →
      q ∈ CSharpMetricsAnalyzer.recordedNodes ctx body k →
      p.2.1.ty = q.2.1.ty → p.2.1.ty ∈ CSharpMetricsAnalyzer.ruleTableKinds →
      p.2.2 < q.2.2 →
      (CSharpMetricsAnalyzer.mkDetail q).increment =
        (CSharpMetricsAnalyzer.mkDetail p).increment + (q.2.2 - p.2.2)) := by
  constructor
  · intro ctx body st d hd
    rw [CSharpMetricsAnalyzer.cs_visit_spec] at hd
    rcases List.mem_append.mp hd with h | h
    · exact Or.inl h
    · obtain ⟨p, hp, hpd⟩ := List.mem_map.mp h
      subst hpd
      exact Or.inr ⟨p, hp, rfl, rfl, rfl,
        (CSharpMetricsAnalyzer.cs_mem_recordedNodes ctx body st.nesting p hp).1⟩
  · intro ctx body k p q hp hq hty hkind hlt
    have hp1 := CSharpMetricsAnalyzer.cs_mem_recordedNodes ctx body k p hp
    have hq1 := CSharpMetricsAnalyzer.cs_mem_recordedNodes ctx body k q hq
    have hbp := CSharpMetricsAnalyzer.cs_ruleTable_base_zero_or_one p.1 p.2.2 p.2.1 hkind
    have hbq := CSharpMetricsAnalyzer.cs_ruleTable_base_zero_or_one q.1 q.2.2 q.2.1 (hty ▸ hkind)
    have hbp1 : CSharpMetricsAnalyzer.getComplexityIncrement p.1 p.2.2 p.2.1 = 1 := by
      rcases hbp with h | h
      · omega
      · exact h
    have hbq1 : CSharpMetricsAnalyzer.getComplexityIncrement q.1 q.2.2 q.2.1 = 1 := by
      rcases hbq with h | h
      · omega
      · exact h
    simp [CSharpMetricsAnalyzer.mkDetail, hbp1, hbq1]

/-- Witness for C1: on `{ if (a) { if (b) { } } }`, the increment formula
holds for the outer if's detail, and the two same-kind ifs at nestings 0 and 1
have increments differing by exactly 1. -/
theorem c1_csharp_increment_formula_witness :
    (ifInIfOuterDetail ∈ (AnalyzerState.mk 0 0 []).details ∨
      ∃ p ∈ CSharpMetricsAnalyzer.recordedNodes [] ifInIfBody (AnalyzerState.mk 0 0 []).nesting,
        ifInIfOuterDetail = CSharpMetricsAnalyzer.mkDetail p ∧
        ifInIfOuterDetail.increment =
          CSharpMetricsAnalyzer.getComplexityIncrement p.1 p.2.2 p.2.1 + p.2.2 ∧
        ifInIfOuterDetail.nesting = p.2.2 ∧
        0 < CSharpMetricsAnalyzer.getComplexityIncrement p.1 p.2.2 p.2.1) ∧
    (CSharpMetricsAnalyzer.mkDetail ifInIfTripleInner).increment =
      (CSharpMetricsAnalyzer.mkDetail ifInIfTripleOuter).increment +
        (ifInIfTripleInner.2.2 - ifInIfTripleOuter.2.2) :=
  ⟨c1_csharp_increment_formula.1 [] ifInIfBody (AnalyzerState.mk 0 0 []) ifInIfOuterDetail
      (by decide),
   c1_csharp_increment_formula.2 [] ifInIfBody 0 ifInIfTripleOuter ifInIfTripleInner
      (by rw [(rfl : CSharpMetricsAnalyzer.recordedNodes [] ifInIfBody 0 =
          [ifInIfTripleOuter, ifInIfTripleInner])]
          exact List.mem_cons_self _ _)
      (by rw [(rfl : CSharpMetricsAnalyzer.recordedNodes [] ifInIfBody 0 =
          [ifInIfTripleOuter, ifInIfTripleInner])]
          exact List.mem_cons_of_mem _ (List.mem_cons_self _ _))
      rfl (by decide) (by decide)⟩

/-- Counterexample for C1 as literally stated: two recovery (`ERROR`) nodes of
the same kind, recorded at nestings 0 and 1, whose increments differ by 2, not
1, because the `ERROR` base weight depends on the node's text. -/
theorem c1_same_kind_counterexample :
    CSharpMetricsAnalyzer.recordedNodes [] twoErrorBody 0 =
      [twoErrorTripleA, twoErrorTripleIf, twoErrorTripleB] ∧
    twoErrorTripleA ∈ CSharpMetricsAnalyzer.recordedNodes [] twoErrorBody 0 ∧
    twoErrorTripleB ∈ CSharpMetricsAnalyzer.recordedNodes [] twoErrorBody 0 ∧
    twoErrorTripleA.2.1.ty = twoErrorTripleB.2.1.ty ∧
    twoErrorTripleA.2.2 < twoErrorTripleB.2.2 ∧
    (CSharpMetricsAnalyzer.mkDetail twoErrorTripleA).increment = 1 ∧
    (CSharpMetricsAnalyzer.mkDetail twoErrorTripleB).increment = 3 ∧
    ¬ ((CSharpMetricsAnalyzer.mkDetail twoErrorTripleB).increment =
        (CSharpMetricsAnalyzer.mkDetail twoErrorTripleA).increment +
          (twoErrorTripleB.2.2 - twoErrorTripleA.2.2)) := by
  refine ⟨rfl, ?_, ?_, rfl, by decide, by decide, by decide, by decide⟩
  · rw [(rfl : CSharpMetricsAnalyzer.recordedNodes [] twoErrorBody 0 =
      [twoErrorTripleA, twoErrorTripleIf, twoErrorTripleB])]
    exact List.mem_cons_self _ _
  · rw [(rfl : CSharpMetricsAnalyzer.recordedNodes [] twoErrorBody 0 =
      [twoErrorTripleA, twoErrorTripleIf, twoErrorTripleB])]
    exact List.mem_cons_of_mem _ (List.mem_cons_of_mem _ (List.mem_cons_self _ _))

/-- C3 evaluation: on a Language A function body that is a top-level try with
two catch clauses, the code yields complexity 5 (increments 1, 2, 2: the
catch clauses, being children of the nesting-increasing `try_statement`, each
get a +1 nesting bonus) and three details — not the claimed total of 3. -/
theorem c3_try_two_catch_evaluation :
    MetricsAnalyzerFactory.analyzeFile (fun _ => tryTwoCatchTree) emptyParse
      "class Test - MultipleCatch with try and two catch clauses" (some "csharp") =
      [multipleCatchResult] ∧
    multipleCatchResult.details.length = 3 ∧
    multipleCatchResult.details.map MetricsDetail.increment = [1, 2, 2] ∧
    multipleCatchResult.complexity = 5 ∧
    ¬ multipleCatchResult.complexity = 3 := by
  refine ⟨by decide, by decide, by decide, by decide, by decide⟩

/-- C4 (amended): in the C# scorer a `switch_expression` node is NOT
nesting-increasing: `increasesNesting` is false on it, so the walk recurses
into its children at the unchanged nesting level, and every
complexity-contributing construct inside it is recorded at the same nesting
level as the switch expression's own. -/
theorem c4_switch_expression_not_nesting :
    (∀ node : Node, node.ty = "switch_expression" →
      CSharpMetricsAnalyzer.increasesNesting node = false) ∧
    (∀ (ctx : Ctx) (k : Int) (node : Node), node.ty = "switch_expression" →
      CSharpMetricsAnalyzer.recordedNodes ctx node k =
        (if CSharpMetricsAnalyzer.getComplexityIncrement ctx k node > 0
         then [(ctx, node, k)] else []) ++
        CSharpMetricsAnalyzer.recordedChildren node ctx 0 node.children k) := by
  constructor
  · intro node h
    cases node with
    | mk ty txt sr sc er ec cs =>
      simp only [Node.ty] at h
      subst h
      rfl
  · intro ctx k node h
    cases node with
    | mk ty txt sr sc er ec cs =>
      simp only [Node.ty] at h
      subst h
      rw [CSharpMetricsAnalyzer.recordedNodes]
      have hinc : CSharpMetricsAnalyzer.increasesNesting
          (Node.mk "switch_expression" txt sr sc er ec cs) = false := rfl
      rw [hinc]
      simp [Node.children]

/-- Witness for C4 at the concrete switch expression containing a ternary. -/
theorem c4_switch_expression_not_nesting_witness :
    CSharpMetricsAnalyzer.increasesNesting switchExprWithTernary = false ∧
    CSharpMetricsAnalyzer.recordedNodes [] switchExprWithTernary 0 =
      (if CSharpMetricsAnalyzer.getComplexityIncrement [] 0 switchExprWithTernary > 0
       then [([], switchExprWithTernary, 0)] else []) ++
      CSharpMetricsAnalyzer.recordedChildren switchExprWithTernary [] 0
        switchExprWithTernary.children 0 :=
  ⟨c4_switch_expression_not_nesting.1 switchExprWithTernary rfl,
   c4_switch_expression_not_nesting.2 [] 0 switchExprWithTernary rfl⟩

/-- Counterexample for C4 as stated: on a body whose switch expression (at
nesting 0) contains a ternary, the ternary's detail is recorded at nesting 0,
the same level as the switch expression — not one higher. -/
theorem c4_switch_expression_counterexample :
    CSharpMetricsAnalyzer.increasesNesting switchExprWithTernary = false ∧
    (CSharpMetricsAnalyzer.visit [] switchExprBody (AnalyzerState.mk 0 0 [])).details.map
      MetricsDetail.reason = ["switch expression", "ternary operator"] ∧
    (CSharpMetricsAnalyzer.visit [] switchExprBody (AnalyzerState.mk 0 0 [])).details.map
      MetricsDetail.nesting = [0, 0] ∧
    ¬ (CSharpMetricsAnalyzer.visit [] switchExprBody (AnalyzerState.mk 0 0 [])).details.map
      MetricsDetail.nesting = [0, 1] := by
  refine ⟨by decide, by decide, by decide, by decide⟩

/-- C5: while scoring a function body, the walk never enters a child that is a
function declaration — every recorded detail comes from a node reachable
without crossing a nested function declaration (for both languages) — and a
nested function declaration anywhere in the tree is reported as its own
independent result by the top-level traversal. -/
theorem c5_nested_function_isolation :
    (∀ (ctx : Ctx) (body : Node) (st : AnalyzerState) (d : MetricsDetail),
      d ∈ (CSharpMetricsAnalyzer.visit ctx body st).details → d ∈ st.details ∨
      ∃ p ∈ CSharpMetricsAnalyzer.recordedNodes ctx body st.nesting,
        d = CSharpMetricsAnalyzer.mkDetail p ∧
        CSharpMetricsAnalyzer.SkipWalk body p.2.1) ∧
    (∀ (body : Node) (st : AnalyzerState) (d : MetricsDetail),
      d ∈ (GoMetricsAnalyzer.visit body st).details → d ∈ st.details ∨
      ∃ p ∈ GoMetricsAnalyzer.recordedNodes body st.nesting,
        d = GoMetricsAnalyzer.mkDetail p ∧
        GoMetricsAnalyzer.SkipWalk body p.1) ∧
    (∀ (ctx : Ctx) (n : Node) (c : Ctx) (dn : Node),
      CSharpMetricsAnalyzer.TreePath ctx n c dn →
      CSharpMetricsAnalyzer.isFunctionDeclaration dn = true →
      ∀ f, CSharpMetricsAnalyzer.analyzeFunction c dn = some f →
        f ∈ CSharpMetricsAnalyzer.collect ctx n) ∧
    (∀ n dn : Node, GoMetricsAnalyzer.TreePath n dn →
      GoMetricsAnalyzer.isFunctionDeclaration dn = true →
      ∀ f, GoMetricsAnalyzer.analyzeFunction dn = some f →
        f ∈ GoMetricsAnalyzer.collect n) := by
  refine ⟨?_, ?_, ?_, ?_⟩
  · intro ctx body st d hd
    rw [CSharpMetricsAnalyzer.cs_visit_spec] at hd
    rcases List.mem_append.mp hd with h | h
    · exact Or.inl h
    · obtain ⟨p, hp, hpd⟩ := List.mem_map.mp h
      subst hpd
      exact Or.inr ⟨p, hp, rfl,
        CSharpMetricsAnalyzer.cs_skipWalk_recordedNodes ctx body st.nesting p hp⟩
  · intro body st d hd
    rw [GoMetricsAnalyzer.go_visit_spec] at hd
    rcases List.mem_append.mp hd with h | h
    · exact Or.inl h
    · obtain ⟨p, hp, hpd⟩ := List.mem_map.mp h
      subst hpd
      exact Or.inr ⟨p, hp, rfl,
        GoMetricsAnalyzer.go_skipWalk_recordedNodes body st.nesting p hp⟩
  · intro ctx n c dn hpath hdecl f hsome
    exact CSharpMetricsAnalyzer.cs_collect_complete hpath hdecl hsome
  · intro n dn hpath hdecl f hsome
    exact GoMetricsAnalyzer.go_collect_complete hpath hdecl hsome

/-- Witness for C5: in the `OuterMethod` example containing the named local
function `LocalFunction`, the outer body's if-detail satisfies the skip-walk
property, and `LocalFunction` is reported as its own result by the top-level
traversal. -/
theorem c5_nested_function_isolation_witness :
    (outerIfDetail ∈ (AnalyzerState.mk 0 0 []).details ∨
      ∃ p ∈ CSharpMetricsAnalyzer.recordedNodes [] outerMethodBody
          (AnalyzerState.mk 0 0 []).nesting,
        outerIfDetail = CSharpMetricsAnalyzer.mkDetail p ∧
        CSharpMetricsAnalyzer.SkipWalk outerMethodBody p.2.1) ∧
    localFunctionResult ∈ CSharpMetricsAnalyzer.collect [] nestedFunctionTree :=
  ⟨c5_nested_function_isolation.1 [] outerMethodBody (AnalyzerState.mk 0 0 [])
      outerIfDetail (by decide),
   c5_nested_function_isolation.2.2.1 [] nestedFunctionTree
      [(outerMethodBody, 1), (outerMethod, 1), (nestedFunctionTree, 2)]
      nestedLocalFunction
      (CSharpMetricsAnalyzer.TreePath.step 2 rfl
        (CSharpMetricsAnalyzer.TreePath.step 1 rfl
          (CSharpMetricsAnalyzer.TreePath.step 1 rfl
            (CSharpMetricsAnalyzer.TreePath.refl _ _))))
      (by decide) localFunctionResult (by decide)⟩
